import Mathlib

/-!
Verification of the backup-tool repository: a shallow embedding of the
planner (planner.ts), the catalog adapter's host loader (mongodb.ts) and
the SSH executor / run coordinator (executor.ts together with the
scp-capable SSHExecutor revision contained in run.ts, which is the
revision executor.ts's calls to scpUpload / scpDownload / upload require).

JavaScript records are embedded as association lists (first binding wins
on lookup, assignment overwrites in place); JavaScript Date values are
embedded as an integer count of milliseconds since the Unix epoch, with
getDate / setDate / getMonth / setMonth realised through the standard
civil-calendar conversions (UTC; the ECMAScript MakeDay normalisation of
out-of-range fields is reproduced exactly).  Mutation of arguments is
made explicit: createPlan returns the final value of its latestRun
argument alongside the plan.
-/

namespace BackupTool

/-- SSH connection parameters, from the Host type in planner.ts. -/
structure SSHConfig where
  username : String
  host : String
  privateKeyPath : String
  passphrase : Option String := none
deriving DecidableEq, Repr

/-- The reachability verdict stored in a host's available field. -/
inductive Availability where
  | reachable
  | unreachable
  | noData
deriving DecidableEq, Repr

/-- A catalog host (planner.ts).  The ssh field maps peer host ids to the
parameters this host uses to reach them; it is embedded as an association
list in object-key insertion order. -/
structure Host where
  hostId : String
  agent : Bool := false
  available : Option Availability := none
  ssh : List (String × SSHConfig) := []
deriving DecidableEq, Repr

/-- A backup destination (planner.ts).  Only the host variant exists in
this revision, so the discriminant is omitted. -/
structure Destination where
  host : String
  path : String
deriving DecidableEq, Repr

/-- The backup strategy variants of planner.ts. -/
inductive BackupStrategy where
  | files (paths : List String)
  | mongodb (connectionUrl : String)
deriving DecidableEq, Repr

/-- A pre or post hook: a shell command and the working directory it runs
in (planner.ts). -/
structure Hook where
  cwd : String
  cmd : String
deriving DecidableEq, Repr

/-- The optional pre / post hook pair of a blueprint. -/
structure Hooks where
  pre : Option Hook := none
  post : Option Hook := none
deriving DecidableEq, Repr

/-- The backup interval union of planner.ts. -/
inductive RepeatInterval where
  | daily
  | weekly
  | monthly
deriving DecidableEq, Repr

/-- The mode-discriminated part of a blueprint (planner.ts). -/
inductive BlueprintMode where
  | sshAgent (host : String) (hooks : Option Hooks) (strategy : BackupStrategy)
      (destinations : List Destination)
  | dummy
deriving DecidableEq, Repr

/-- A blueprint (planner.ts). -/
structure Blueprint where
  blueprintId : String
  interval : RepeatInterval
  mode : BlueprintMode
deriving DecidableEq, Repr

/-- The downloadLocally field of a clone strategy: an object carrying a
path, or a plain boolean (planner.ts). -/
inductive PathOrBool where
  | withPath (path : String)
  | flag (b : Bool)
deriving DecidableEq, Repr

/-- JavaScript truthiness of a PathOrBool value: objects are truthy,
booleans are themselves. -/
def truthy : PathOrBool → Bool
  | .withPath _ => true
  | .flag b => b

/-- The clone strategy of a plan (planner.ts).  retainOnHost is the
optional retention path on the source host (the source's orBool-false is
embedded as none). -/
structure CloneStrategy where
  retainOnHost : Option String
  downloadLocally : PathOrBool
  directlyCloneTo : List Destination
  redirectCloneTo : List Destination
  receiveCloneFrom : List Destination
deriving DecidableEq, Repr

/-- A plan (planner.ts). -/
inductive Plan where
  | sshAgent (id : String) (host : Host) (hooks : Option Hooks)
      (strategy : BackupStrategy) (clone : CloneStrategy)
  | skipped (id : String)
  | failed (id : String)
deriving DecidableEq, Repr

/-- Lookup in a JavaScript-object-as-association-list (first binding
wins). -/
def recGet (m : List (String × α)) (k : String) : Option α :=
  List.lookup k m

/-- Assignment in a JavaScript object: overwrite the existing binding in
place, or append a fresh one. -/
def recSet (m : List (String × α)) (k : String) (v : α) : List (String × α) :=
  match m with
  | [] => [(k, v)]
  | (k₁, v₁) :: rest =>
      if k₁ == k then (k, v) :: rest else (k₁, v₁) :: recSet rest k v

/-- The catalog of hosts keyed by id, as the planner receives it. -/
abbrev HostMap := List (String × Host)

/-! JavaScript Date embedding.  A Date is its millisecond timestamp; the
civil-calendar conversions below are the standard era-based algorithms
and agree with ECMAScript MakeDay / date decomposition at UTC. -/

/-- A JavaScript Date value: milliseconds since the Unix epoch. -/
structure JSDate where
  epochMs : Int
deriving DecidableEq, Repr

/-- Days since 1970-01-01 of the civil date (y, m, d), month 1-based.
Out-of-range days are absorbed linearly, as ECMAScript MakeDay does. -/
def daysFromCivil (y m d : Int) : Int :=
  let y₁ := if m ≤ 2 then y - 1 else y
  let era := y₁.fdiv 400
  let yoe := y₁ - era * 400
  let mp := if m > 2 then m - 3 else m + 9
  let doy := (153 * mp + 2).fdiv 5 + d - 1
  let doe := yoe * 365 + yoe.fdiv 4 - yoe.fdiv 100 + doy
  era * 146097 + doe - 719468

/-- Civil date (y, m, d) of a day count since 1970-01-01, month 1-based. -/
def civilFromDays (z₀ : Int) : Int × Int × Int :=
  let z := z₀ + 719468
  let era := z.fdiv 146097
  let doe := z - era * 146097
  let yoe := (doe - doe.fdiv 1460 + doe.fdiv 36524 - doe.fdiv 146096).fdiv 365
  let y := yoe + era * 400
  let doy := doe - (365 * yoe + yoe.fdiv 4 - yoe.fdiv 100)
  let mp := (5 * doy + 2).fdiv 153
  let d := doy - (153 * mp + 2).fdiv 5 + 1
  let m := if mp < 10 then mp + 3 else mp - 9
  (if m ≤ 2 then y + 1 else y, m, d)

/-- The day component of a Date's timestamp. -/
def JSDate.epochDay (t : JSDate) : Int := t.epochMs.fdiv 86400000

/-- The within-day milliseconds of a Date's timestamp. -/
def JSDate.msOfDay (t : JSDate) : Int := t.epochMs - t.epochDay * 86400000

/-- JavaScript getDate(): the day of the month. -/
def JSDate.getDate (t : JSDate) : Int := (civilFromDays t.epochDay).2.2

/-- JavaScript getMonth(): the zero-based month. -/
def JSDate.getMonth (t : JSDate) : Int := (civilFromDays t.epochDay).2.1 - 1

/-- JavaScript setDate(n): rebuild the timestamp from the current year
and month with day-of-month n, normalising overflow linearly. -/
def JSDate.setDate (t : JSDate) (n : Int) : JSDate :=
  let c := civilFromDays t.epochDay
  ⟨(daysFromCivil c.1 c.2.1 1 + (n - 1)) * 86400000 + t.msOfDay⟩

/-- JavaScript setMonth(mo): rebuild the timestamp with zero-based month
mo, normalising month overflow into the year and day overflow linearly
(so Jan 31 plus one month lands in early March, as in ECMAScript). -/
def JSDate.setMonth (t : JSDate) (mo : Int) : JSDate :=
  let c := civilFromDays t.epochDay
  ⟨(daysFromCivil (c.1 + mo.fdiv 12) (mo.emod 12 + 1) 1 + (c.2.2 - 1)) * 86400000
    + t.msOfDay⟩

/-- The in-place advance of latestRun performed by createPlan's interval
switch: setDate(getDate()+1) daily, setDate(getDate()+7) weekly,
setMonth(getMonth()+1) monthly. -/
def addInterval : RepeatInterval → JSDate → JSDate
  | .daily, t => t.setDate (t.getDate + 1)
  | .weekly, t => t.setDate (t.getDate + 7)
  | .monthly, t => t.setMonth (t.getMonth + 1)

/-! The planner (createPlan in planner.ts). -/

/-- The filter over blueprint destinations that drops the agent, the
source host itself, and any destination whose host is unknown or marked
unreachable (planner.ts lines 206-228).  hostId is the id of the
resolved source host. -/
def survPred (hosts : HostMap) (hostId agentId : String) (d : Destination) : Bool :=
  if d.host == agentId || d.host == hostId then false
  else
    match recGet hosts d.host with
    | none => false
    | some dh => !(dh.available == some .unreachable)

/-- The directlyCloneTo filter: the source host holds SSH parameters for
the destination. -/
def directPred (host : Host) (d : Destination) : Bool :=
  (recGet host.ssh d.host).isSome

/-- The redirectCloneTo filter: neither the source host can reach the
destination nor the destination the source host. -/
def redirectPred (hosts : HostMap) (host : Host) (d : Destination) : Bool :=
  !(recGet host.ssh d.host).isSome &&
    !((recGet hosts d.host).bind fun dh => recGet dh.ssh host.hostId).isSome

/-- The receiveCloneFrom filter: the source host cannot reach the
destination but the destination can reach the source host. -/
def receivePred (hosts : HostMap) (host : Host) (d : Destination) : Bool :=
  !(recGet host.ssh d.host).isSome &&
    ((recGet hosts d.host).bind fun dh => recGet dh.ssh host.hostId).isSome

/-- The clone strategy as first assembled by createPlan (before the
no-viable-destinations check and the redirect fix-up). -/
def buildClone (hosts : HostMap) (host : Host) (destinationHost agentHost : Option Destination)
    (destinations : List Destination) : CloneStrategy :=
  { retainOnHost := destinationHost.map (·.path)
    downloadLocally :=
      match agentHost with
      | some a => .withPath a.path
      | none => .flag false
    directlyCloneTo := destinations.filter (directPred host)
    redirectCloneTo := destinations.filter (redirectPred hosts host)
    receiveCloneFrom := destinations.filter (receivePred hosts host) }

/-- The fix-up at planner.ts line 300: if redirect destinations exist and
downloadLocally is falsy, force it to true. -/
def finalizeClone (c : CloneStrategy) : CloneStrategy :=
  if !c.redirectCloneTo.isEmpty && !truthy c.downloadLocally then
    { c with downloadLocally := .flag true }
  else c

/-- The clone strategy createPlan assembles for a resolved source host:
the retain-on-host destination is the first one naming the source, the
local one the first naming the agent, and the buckets are filters over
the surviving destinations. -/
def planClone (hosts : HostMap) (host : Host) (bHost agentId : String)
    (dests : List Destination) : CloneStrategy :=
  buildClone hosts host (dests.find? fun d => d.host == bHost)
    (dests.find? fun d => d.host == agentId)
    (dests.filter (survPred hosts host.hostId agentId))

/-- The no-viable-destinations guard of planner.ts line 284: all of
redirectCloneTo, directlyCloneTo, retainOnHost and downloadLocally are
empty or falsy.  receiveCloneFrom is not consulted, exactly as in the
source. -/
def noViable (c : CloneStrategy) : Bool :=
  c.redirectCloneTo.isEmpty && c.directlyCloneTo.isEmpty &&
    c.retainOnHost.isNone && !truthy c.downloadLocally

/-- The mode dispatch and validation of createPlan (the try block,
planner.ts lines 164-311).  Thrown strings are embedded as early returns
of the failed plan the surrounding catch produces. -/
def dispatchMode (hosts : HostMap) (b : Blueprint) (agentId : String) : Plan :=
  match b.mode with
  | .dummy => .skipped b.blueprintId
  | .sshAgent bHost hooks strategy dests =>
    match recGet hosts bHost with
    | none => .failed b.blueprintId
    | some host =>
      if host.available.isNone then .failed b.blueprintId
      else
        match recGet hosts agentId with
        | none => .failed b.blueprintId
        | some agentH =>
          if (recGet agentH.ssh bHost).isNone then .failed b.blueprintId
          else
            if noViable (planClone hosts host bHost agentId dests) then
              .failed b.blueprintId
            else
              .sshAgent b.blueprintId host hooks strategy
                (finalizeClone (planClone hosts host bHost agentId dests))

/-- createPlan (planner.ts lines 119-320).  The second component of the
result is the value of the caller's latestRun Date after the call: the
interval switch mutates it in place before the due comparison, and that
mutation survives the call.  now stands for the timestamp new Date()
yields inside the comparison. -/
def createPlan (hosts : HostMap) (b : Blueprint) (latestRun : Option JSDate)
    (agentId : String) (now : Int) : Plan × Option JSDate :=
  match latestRun with
  | some lr =>
    if (addInterval b.interval lr).epochMs > now then
      (.skipped b.blueprintId, some (addInterval b.interval lr))
    else (dispatchMode hosts b agentId, some (addInterval b.interval lr))
  | none => (dispatchMode hosts b agentId, none)

/-! The catalog adapter's host loader (fetchHosts in mongodb.ts). -/

/-- fetchHosts (mongodb.ts lines 9-41).  Loads the host documents into a
record (later documents overwrite earlier ones, as JavaScript object
assignment does), marks the agent's own host, and then walks the agent's
ssh map: for every peer present in the record it runs the reachability
probe.  In the source the probe's ssh.connect call is not awaited, so the
pending rejection of a failing connection is never observed inside the
try block and the catch arm that would write unreachable is dead code:
every probed peer is assigned reachable unconditionally.  The embedding
reproduces exactly that. -/
def fetchHosts (results : List Host) (agentId : String) : HostMap :=
  let hosts := results.foldl
    (fun hs h => recSet hs h.hostId (if h.hostId == agentId then { h with agent := true } else h))
    []
  match recGet hosts agentId with
  | none => hosts
  | some agentHost =>
    agentHost.ssh.foldl
      (fun hs p =>
        match recGet hs p.1 with
        | none => hs
        | some h => recSet hs p.1 { h with available := some .reachable })
      hosts

/-- The probe loop as the specification describes it: the connection
attempt is awaited, success yields reachable and any error yields
unreachable.  probe says whether opening an SSH session to the given
peer succeeds. -/
def fetchHostsAwaited (results : List Host) (agentId : String)
    (probe : String → Bool) : HostMap :=
  let hosts := results.foldl
    (fun hs h => recSet hs h.hostId (if h.hostId == agentId then { h with agent := true } else h))
    []
  match recGet hosts agentId with
  | none => hosts
  | some agentHost =>
    agentHost.ssh.foldl
      (fun hs p =>
        match recGet hs p.1 with
        | none => hs
        | some h =>
          recSet hs p.1
            { h with available := some (if probe p.1 then .reachable else .unreachable) })
      hosts

/-! The SSH executor (the SSHExecutor class revision embedded in run.ts,
the one with scp support that executor.ts uses) and the plan execution
function (executor.ts).  The side effects of a run are recorded as a
trace of events; each remote operation consults an oracle describing how
the outside world responds (whether a connection, remote command or file
transfer succeeds, and with what message or exit code it fails). -/

/-- One observable side effect of an execution.  Sessions are identified
by the SSH configuration handed to createSSHExecutor (none when the
looked-up configuration was undefined). -/
inductive Ev where
  | ready (s : Option SSHConfig)
  | finish (s : Option SSHConfig)
  | exec (s : Option SSHConfig) (cmd : String) (args : List String)
  | execCommand (s : Option SSHConfig) (cmd : String) (cwd : String)
  | getFile (s : Option SSHConfig) (localFile remoteFile : String)
  | putFile (s : Option SSHConfig) (localFile remoteFile : String)
  | rmLocal (path : String)
deriving DecidableEq, Repr

/-- The environment's responses: ok says whether an operation succeeds
(for exec, whether the remote command exits zero), msg is the error text
of a failing operation, and exitCode is the status execCommand resolves
with (node-ssh execCommand reports the status instead of rejecting). -/
structure Oracle where
  ok : Ev → Bool
  msg : Ev → String
  exitCode : Ev → Int

/-- The environment in which every operation succeeds. -/
def allOk : Oracle := { ok := fun _ => true, msg := fun _ => "", exitCode := fun _ => 0 }

/-- The outcome of a fragment of an execution: the trace of events it
performed and either its value or the error it raised. -/
abbrev ExecRes (α : Type) := List Ev × Except String α

/-- Sequencing of execution fragments: a raised error skips the rest, a
value feeds it; traces concatenate. -/
def andThen (r : ExecRes α) (f : α → ExecRes β) : ExecRes β :=
  match r with
  | (t, .error e) => (t, .error e)
  | (t, .ok a) =>
    let r₂ := f a
    (t ++ r₂.1, r₂.2)

/-- ready(): ssh.connect with the stored configuration. -/
def connectOp (o : Oracle) (s : Option SSHConfig) : ExecRes Unit :=
  ([.ready s], if o.ok (.ready s) then .ok () else .error (o.msg (.ready s)))

/-- finish(): ssh.dispose, which does not fail. -/
def disposeOp (s : Option SSHConfig) : ExecRes Unit :=
  ([.finish s], .ok ())

/-- ssh.exec: rejects (with the stderr text) when the remote command
exits non-zero. -/
def execOp (o : Oracle) (s : Option SSHConfig) (cmd : String) (args : List String) :
    ExecRes Unit :=
  ([.exec s cmd args],
    if o.ok (.exec s cmd args) then .ok () else .error (o.msg (.exec s cmd args)))

/-- ssh.execCommand: always resolves, reporting the exit status in its
response rather than rejecting. -/
def execCommandOp (o : Oracle) (s : Option SSHConfig) (cmd cwd : String) : ExecRes Int :=
  ([.execCommand s cmd cwd], .ok (o.exitCode (.execCommand s cmd cwd)))

/-- The hook steps of SSHExecutor.execute: run the command through
execCommand and discard its response (the source ignores the result
object, exit status included). -/
def hookOp (o : Oracle) (s : Option SSHConfig) : Option Hook → ExecRes Unit
  | some h => andThen (execCommandOp o s h.cmd h.cwd) fun _ => ([], .ok ())
  | none => ([], .ok ())

/-- Whether hay contains needle as a contiguous substring. -/
def strContains (hay needle : String) : Bool :=
  decide (needle.toList <:+: hay.toList)

/-- The guarded mongodump step: its error is swallowed unless the error
text contains the literal substring Failed. -/
def mongodumpOp (o : Oracle) (s : Option SSHConfig) (fn url : String) : ExecRes Unit :=
  let ev := Ev.exec s "mongodump" ["-o", fn, url]
  ([ev],
    if o.ok ev then .ok ()
    else if strContains (o.msg ev) "Failed" then .error (o.msg ev)
    else .ok ())

/-- SSHExecutor.execute (run.ts lines 113-160): optional pre hook, then
the strategy dispatch producing the archive at pkgFn, then the optional
post hook; returns the archive path.  pkgFn stands for the random
tmp() name and dumpFn for the timestamped mongodump directory. -/
def SSHExecutor.execute (o : Oracle) (s : Option SSHConfig) (pkgFn dumpFn : String)
    (hooks : Option Hooks) (strategy : BackupStrategy) : ExecRes String :=
  andThen (hookOp o s (hooks.bind fun hk => hk.pre)) fun _ =>
  andThen
    (match strategy with
      | .files paths => execOp o s "tar" ("czvfP" :: pkgFn :: paths)
      | .mongodb url =>
        andThen (mongodumpOp o s dumpFn url) fun _ =>
        andThen (execOp o s "tar" ["cvfP", pkgFn, dumpFn]) fun _ =>
        execOp o s "rm" ["-r", dumpFn]) fun _ =>
  andThen (hookOp o s (hooks.bind fun hk => hk.post)) fun _ =>
  ([], .ok pkgFn)

/-- download(remote, local): ssh.getFile(localFile, remoteFile). -/
def getFileOp (o : Oracle) (s : Option SSHConfig) (localFile remoteFile : String) :
    ExecRes Unit :=
  ([.getFile s localFile remoteFile],
    if o.ok (.getFile s localFile remoteFile) then .ok ()
    else .error (o.msg (.getFile s localFile remoteFile)))

/-- upload(local, remote): ssh.putFile(localFile, remoteFile). -/
def putFileOp (o : Oracle) (s : Option SSHConfig) (localFile remoteFile : String) :
    ExecRes Unit :=
  ([.putFile s localFile remoteFile],
    if o.ok (.putFile s localFile remoteFile) then .ok ()
    else .error (o.msg (.putFile s localFile remoteFile)))

/-- fs rm of a file on the agent's own filesystem. -/
def rmLocalOp (o : Oracle) (path : String) : ExecRes Unit :=
  ([.rmLocal path], if o.ok (.rmLocal path) then .ok () else .error (o.msg (.rmLocal path)))

/-- The assertion prelude shared by scpUpload and scpDownload: the peer
configuration must be present with non-empty privateKeyPath, username
and host, else the call raises before any remote command runs.  (An
absent configuration raises already when its first field is read.) -/
def scpAsserts (remote : Option SSHConfig) (k : ExecRes Unit) : ExecRes Unit :=
  match remote with
  | none => ([], .error "missing private key path")
  | some r =>
    if r.privateKeyPath == "" then ([], .error "missing private key path")
    else if r.username == "" then ([], .error "missing username")
    else if r.host == "" then ([], .error "missing host")
    else k

/-- scpUpload(localOnSession, remote, remoteFile): scp -i key local
user@host:remote run on the session host. -/
def scpUploadOp (o : Oracle) (s : Option SSHConfig) (localFile : String)
    (remote : Option SSHConfig) (remoteFile : String) : ExecRes Unit :=
  scpAsserts remote <|
    match remote with
    | none => ([], .error "missing private key path")
    | some r =>
      execOp o s "scp"
        ["-i", r.privateKeyPath, localFile, r.username ++ "@" ++ r.host ++ ":" ++ remoteFile]

/-- scpDownload(remoteFile, remote, localOnSession): scp -i key
user@host:remote local run on the session host. -/
def scpDownloadOp (o : Oracle) (s : Option SSHConfig) (remoteFile : String)
    (remote : Option SSHConfig) (localFile : String) : ExecRes Unit :=
  scpAsserts remote <|
    match remote with
    | none => ([], .error "missing private key path")
    | some r =>
      execOp o s "scp"
        ["-i", r.privateKeyPath, r.username ++ "@" ++ r.host ++ ":" ++ remoteFile, localFile]

/-- The backup file name executor.ts computes: the plan id with every
slash replaced by a dash (the global single-character regex replace),
an underscore, the ISO timestamp, and the tar.gz suffix. -/
def backupNameOf (planId isoNow : String) : String :=
  (planId.toList.map fun ch => if ch = '/' then '-' else ch).asString
    ++ "_" ++ isoNow ++ ".tar.gz"

/-- The directlyCloneTo loop of executor.ts: the session host pushes the
archive to each destination with the destination's own key for the
source host (hosts[plan.host.id].ssh[d.host]). -/
def uploadAll (o : Oracle) (s : Option SSHConfig) (hosts : HostMap) (srcId : String)
    (pkgFn backupName : String) : List Destination → ExecRes Unit
  | [] => ([], .ok ())
  | d :: rest =>
    andThen
      (scpUploadOp o s pkgFn
        ((recGet hosts srcId).bind fun hh => recGet hh.ssh d.host)
        (d.path ++ backupName)) fun _ =>
    uploadAll o s hosts srcId pkgFn backupName rest

/-- The receiveCloneFrom loop of executor.ts: for each destination, a
second executor is opened against the agent's configuration for that
destination, the destination pulls the archive from the source host via
scp, and the second executor is closed. -/
def receiveAll (o : Oracle) (hosts : HostMap) (agentId srcId : String)
    (pkgFn backupName : String) : List Destination → ExecRes Unit
  | [] => ([], .ok ())
  | d :: rest =>
    andThen (connectOp o ((recGet hosts agentId).bind fun a => recGet a.ssh d.host)) fun _ =>
    andThen
      (scpDownloadOp o ((recGet hosts agentId).bind fun a => recGet a.ssh d.host) pkgFn
        ((recGet hosts d.host).bind fun hh => recGet hh.ssh srcId)
        (d.path ++ backupName)) fun _ =>
    andThen (disposeOp ((recGet hosts agentId).bind fun a => recGet a.ssh d.host)) fun _ =>
    receiveAll o hosts agentId srcId pkgFn backupName rest

/-- The redirectCloneTo loop of executor.ts: for each destination an
executor is opened against the agent's configuration for it, the staged
local file is uploaded, and the executor is closed. -/
def redirectAll (o : Oracle) (hosts : HostMap) (agentId : String)
    (localFile backupName : String) : List Destination → ExecRes Unit
  | [] => ([], .ok ())
  | d :: rest =>
    andThen (connectOp o ((recGet hosts agentId).bind fun a => recGet a.ssh d.host)) fun _ =>
    andThen (putFileOp o ((recGet hosts agentId).bind fun a => recGet a.ssh d.host)
      localFile (d.path ++ backupName)) fun _ =>
    andThen (disposeOp ((recGet hosts agentId).bind fun a => recGet a.ssh d.host)) fun _ =>
    redirectAll o hosts agentId localFile backupName rest

/-- The downloadLocally block of executor.ts: when downloadLocally is
truthy, download the archive to the fixed location ./backups/backupName
resolved to an absolute path, run the redirect loop, and then delete the
local copy unless downloadLocally is the path-carrying object (whose
path field the source never reads).  resolveP stands for path.resolve. -/
def localStage (o : Oracle) (s : Option SSHConfig) (hosts : HostMap) (agentId : String)
    (dl : PathOrBool) (redirect : List Destination) (pkgFn backupName : String)
    (resolveP : String → String) : ExecRes Unit :=
  if truthy dl then
    andThen (getFileOp o s (resolveP ("./backups/" ++ backupName)) pkgFn) fun _ =>
    andThen
      (redirectAll o hosts agentId (resolveP ("./backups/" ++ backupName)) backupName
        redirect) fun _ =>
    match dl with
    | .withPath _ => ([], .ok ())
    | _ => rmLocalOp o (resolveP ("./backups/" ++ backupName))
  else ([], .ok ())

/-- The retention step of executor.ts: move the archive into the retain
path on the source host, or delete it there. -/
def retainStage (o : Oracle) (s : Option SSHConfig) (retain : Option String)
    (pkgFn backupName : String) : ExecRes Unit :=
  match retain with
  | some rp => execOp o s "mv" [pkgFn, rp ++ backupName]
  | none => execOp o s "rm" [pkgFn]

/-- The ssh-agent arm of execute once the agent record is resolved: the
main executor is created against the agent's configuration for the
plan's source host and readied, the strategy is executed, the three
fan-out stages and the local stage run, the archive is retained or
deleted on the source host, and the session is finished. -/
def executeBody (o : Oracle) (hosts : HostMap) (agentId : String) (id : String)
    (host : Host) (hooks : Option Hooks) (strategy : BackupStrategy) (clone : CloneStrategy)
    (pkgFn dumpFn isoNow : String) (resolveP : String → String) (agentH : Host) :
    ExecRes Unit :=
  andThen (connectOp o (recGet agentH.ssh host.hostId)) fun _ =>
  andThen (SSHExecutor.execute o (recGet agentH.ssh host.hostId) pkgFn dumpFn hooks
    strategy) fun pkg =>
  andThen (uploadAll o (recGet agentH.ssh host.hostId) hosts host.hostId pkg
    (backupNameOf id isoNow) clone.directlyCloneTo) fun _ =>
  andThen (receiveAll o hosts agentId host.hostId pkg (backupNameOf id isoNow)
    clone.receiveCloneFrom) fun _ =>
  andThen (localStage o (recGet agentH.ssh host.hostId) hosts agentId clone.downloadLocally
    clone.redirectCloneTo pkg (backupNameOf id isoNow) resolveP) fun _ =>
  andThen (retainStage o (recGet agentH.ssh host.hostId) clone.retainOnHost pkg
    (backupNameOf id isoNow)) fun _ =>
  disposeOp (recGet agentH.ssh host.hostId)

/-- execute (executor.ts lines 11-109): run one plan.  Plans that are
not in ssh-agent mode are only logged.  Reading .ssh of an absent agent
record raises before anything runs; otherwise the resolved agent record
drives executeBody.  pkgFn and dumpFn stand for the random and
timestamped temporary names, isoNow for the timestamp in the backup
file name. -/
def execute (o : Oracle) (hosts : HostMap) (agentId : String) (plan : Plan)
    (pkgFn dumpFn isoNow : String) (resolveP : String → String) : ExecRes Unit :=
  match plan with
  | .skipped _ => ([], .ok ())
  | .failed _ => ([], .ok ())
  | .sshAgent id host hooks strategy clone =>
    match recGet hosts agentId with
    | none => ([], .error "cannot read properties of undefined")
    | some agentH =>
      executeBody o hosts agentId id host hooks strategy clone pkgFn dumpFn isoNow
        resolveP agentH

/-! Concrete catalog fixtures used to evaluate the functions above at
specific inputs. -/

/-- A sample SSH configuration. -/
def fxCfg : SSHConfig := { username := "u", host := "10.0.0.2", privateKeyPath := "/root/.ssh/id" }

/-- A source host marked unreachable. -/
def fxUB : Host := { hostId := "B", available := some .unreachable }

/-- An agent host that can reach B (used with fxUB). -/
def fxUA : Host := { hostId := "A", agent := true, available := some .reachable, ssh := [("B", fxCfg)] }

/-- Catalog with an unreachable source host B. -/
def fxUHosts : HostMap := [("A", fxUA), ("B", fxUB)]

/-- A blueprint backing up B with the single destination B itself. -/
def fxUBp : Blueprint :=
  { blueprintId := "bp"
    interval := .daily
    mode := .sshAgent "B" none (.files ["/etc"]) [⟨"B", "/keep/"⟩] }

/-- A reachable source host with an empty ssh map. -/
def fxRB : Host := { hostId := "B", available := some .reachable }

/-- A reachable destination host that can reach B. -/
def fxRC : Host := { hostId := "C", available := some .reachable, ssh := [("B", fxCfg)] }

/-- An agent host that can reach both B and C. -/
def fxRA : Host :=
  { hostId := "A", agent := true, available := some .reachable, ssh := [("B", fxCfg), ("C", fxCfg)] }

/-- Catalog where the only transport for destination C is the pull from
B (C reaches B, B does not reach C). -/
def fxRHosts : HostMap := [("A", fxRA), ("B", fxRB), ("C", fxRC)]

/-- A blueprint backing up B with the single destination C. -/
def fxRBp : Blueprint :=
  { blueprintId := "bp"
    interval := .daily
    mode := .sshAgent "B" none (.files ["/etc"]) [⟨"C", "/bk/"⟩] }

/-- A source host B that can reach C directly. -/
def fxDB : Host := { hostId := "B", available := some .reachable, ssh := [("C", fxCfg)] }

/-- Catalog where B reaches C directly. -/
def fxDHosts : HostMap := [("A", fxRA), ("B", fxDB), ("C", fxRC)]

/-- Host documents as loaded for the probe test: the agent A knows SSH
parameters for B. -/
def fxFA : Host := { hostId := "A", ssh := [("B", fxCfg)] }

/-- A peer host document with no reachability data. -/
def fxFB : Host := { hostId := "B" }

/-- The probe oracle in which every connection attempt fails. -/
def fxProbeDown : String → Bool := fun _ => false

/-- An empty clone strategy fixture. -/
def fxClone : CloneStrategy :=
  { retainOnHost := none
    downloadLocally := .flag false
    directlyCloneTo := []
    redirectCloneTo := []
    receiveCloneFrom := [] }

/-- An executable plan fixture with a pre hook. -/
def fxPlan : Plan :=
  .sshAgent "bp" fxRB (some { pre := some ⟨"/srv", "./stop.sh"⟩ }) (.files ["/etc"]) fxClone

/-- A clone strategy with a staged local download that must be deleted
after use. -/
def fxCloneDl : CloneStrategy := { fxClone with downloadLocally := .flag true }

/-- The plan fixture with a local download that must be deleted. -/
def fxPlanDl : Plan :=
  .sshAgent "bp" fxRB none (.files ["/etc"]) fxCloneDl

/-- The environment in which the remote tar invocation fails and
everything else succeeds. -/
def fxTarFail : Oracle :=
  { ok := fun ev => match ev with | .exec _ "tar" _ => false | _ => true
    msg := fun _ => "tar: /etc: Cannot stat"
    exitCode := fun _ => 0 }

/-- The environment in which every remote command succeeds but every
execCommand-run hook reports exit status 1. -/
def fxHookExit1 : Oracle :=
  { ok := fun _ => true, msg := fun _ => "", exitCode := fun _ => 1 }

/-- The clone strategy the planner emits in the direct-only scenario
(catalog fxDHosts, blueprint fxRBp). -/
def fxDirClone : CloneStrategy :=
  { retainOnHost := none
    downloadLocally := .flag false
    directlyCloneTo := [⟨"C", "/bk/"⟩]
    redirectCloneTo := []
    receiveCloneFrom := [] }

/-- The pre-hook events of SSHExecutor.execute, as a function of the
optional hooks. -/
def preEvs (s : Option SSHConfig) (hooks : Option Hooks) : List Ev :=
  match hooks.bind fun hk => hk.pre with
  | some h => [.execCommand s h.cmd h.cwd]
  | none => []

/-- The post-hook events of SSHExecutor.execute. -/
def postEvs (s : Option SSHConfig) (hooks : Option Hooks) : List Ev :=
  match hooks.bind fun hk => hk.post with
  | some h => [.execCommand s h.cmd h.cwd]
  | none => []

/-- Occurrences of an event in a trace. -/
def countEv (x : Ev) : List Ev → Nat
  | [] => 0
  | y :: t => (if y = x then 1 else 0) + countEv x t

/-- A trace is session-balanced when, for every SSH configuration, it
holds as many ready events as finish events. -/
def sessionBalanced (t : List Ev) : Prop :=
  ∀ c, countEv (Ev.ready c) t = countEv (Ev.finish c) t

/-- Events that are remote commands (exec or execCommand): they open or
close no session and touch no local file. -/
def isRemoteCmd : Ev → Bool
  | .exec _ _ _ => true
  | .execCommand _ _ _ => true
  | _ => false

/-- Events that download to or delete a file on the agent's own
filesystem. -/
def isLocalFileEv : Ev → Bool
  | .getFile _ _ _ => true
  | .rmLocal _ => true
  | _ => false

/-! Helper lemmas about the planner. -/

/-- Inverting a successful mode dispatch: an emitted ssh-agent plan pins
down the blueprint mode, the resolved source host (which exists and has
a present available field), and the clone strategy construction. -/
theorem dispatch_sshAgent_inv {hosts : HostMap} {b : Blueprint} {agentId : String}
    {i : String} {hst : Host} {hk : Option Hooks} {st : BackupStrategy} {cl : CloneStrategy}
    (h : dispatchMode hosts b agentId = .sshAgent i hst hk st cl) :
    ∃ bHost hooks strategy dests,
      b.mode = .sshAgent bHost hooks strategy dests ∧
      recGet hosts bHost = some hst ∧ hst.available.isSome ∧
      i = b.blueprintId ∧ hk = hooks ∧ st = strategy ∧
      cl = finalizeClone (planClone hosts hst bHost agentId dests) := by
  unfold dispatchMode at h
  split at h
  · exact absurd h (by simp)
  · rename_i bH hks strat ds hbm
    split at h
    · exact absurd h (by simp)
    · rename_i host hrec
      split at h
      · exact absurd h (by simp)
      · rename_i hav
        split at h
        · exact absurd h (by simp)
        · rename_i agentH hag
          split at h
          · exact absurd h (by simp)
          · rename_i hssh
            split at h
            · exact absurd h (by simp)
            · obtain ⟨hi, hhost, hhk, hstg, hcl⟩ := Plan.sshAgent.inj h.symm
              refine ⟨bH, hks, strat, ds, hbm, ?_, ?_, hi, hhk, hstg, ?_⟩
              · rw [hrec, hhost]
              · rw [hhost, Option.isSome_iff_ne_none]
                intro hnone
                exact hav (by rw [hnone]; rfl)
              · rw [hcl, hhost]

/-- The due gate never invents an ssh-agent plan: if createPlan returns
one, the mode dispatch produced it. -/
theorem createPlan_fst_eq_dispatch {hosts : HostMap} {b : Blueprint} {lr : Option JSDate}
    {agentId : String} {now : Int} {i : String} {hst : Host} {hk : Option Hooks}
    {st : BackupStrategy} {cl : CloneStrategy}
    (h : (createPlan hosts b lr agentId now).1 = .sshAgent i hst hk st cl) :
    dispatchMode hosts b agentId = .sshAgent i hst hk st cl := by
  cases lr with
  | none => exact h
  | some d =>
    unfold createPlan at h
    split at h
    · rename_i lr heq
      split at h
      · exact absurd h (by simp)
      · exact h
    · rename_i heq
      exact absurd heq (by simp)

/-- Projections of the redirect fix-up: it only rewrites
downloadLocally, leaving the three buckets and the retain path alone. -/
theorem finalizeClone_buckets (c : CloneStrategy) :
    (finalizeClone c).directlyCloneTo = c.directlyCloneTo ∧
    (finalizeClone c).redirectCloneTo = c.redirectCloneTo ∧
    (finalizeClone c).receiveCloneFrom = c.receiveCloneFrom ∧
    (finalizeClone c).retainOnHost = c.retainOnHost := by
  unfold finalizeClone
  split <;> exact ⟨rfl, rfl, rfl, rfl⟩

/-- A destination surviving the planner's drop filter is neither the
agent nor the source host. -/
theorem survPred_host_ne {hosts : HostMap} {hostId agentId : String} {d : Destination}
    (h : survPred hosts hostId agentId d = true) :
    d.host ≠ agentId ∧ d.host ≠ hostId := by
  unfold survPred at h
  split at h
  · exact absurd h (by simp)
  · rename_i hcond
    rw [Bool.or_eq_true, not_or] at hcond
    exact ⟨by simpa using hcond.1, by simpa using hcond.2⟩

/-! Claim theorems about the planner. -/

/-- Claim C6: for every blueprint, when latestRun is defined and
advancing it by the interval (one day, seven days, or one calendar
month, with the ECMAScript overflow normalisation) lands strictly after
now, createPlan returns the skipped plan; when latestRun is undefined or
the advanced time is not after now, the due gate passes and the result
is exactly what the mode dispatch produces. -/
theorem createPlan_due_check (hosts : HostMap) (b : Blueprint) (agentId : String) (now : Int) :
    (∀ d : JSDate, (addInterval b.interval d).epochMs > now →
      (createPlan hosts b (some d) agentId now).1 = Plan.skipped b.blueprintId) ∧
    (∀ d : JSDate, ¬(addInterval b.interval d).epochMs > now →
      createPlan hosts b (some d) agentId now =
        (dispatchMode hosts b agentId, some (addInterval b.interval d))) ∧
    createPlan hosts b none agentId now = (dispatchMode hosts b agentId, none) := by
  refine ⟨fun d h => ?_, fun d h => ?_, rfl⟩
  · simp [createPlan, h]
  · simp [createPlan, h]

/-- Witness for C6: with a last run at the epoch and a daily interval,
the plan is skipped at fifty million milliseconds (still within the
day) and planning proceeds to mode dispatch at two hundred million. -/
theorem createPlan_due_check_witness :
    (createPlan fxUHosts fxUBp (some ⟨0⟩) "A" 50000000).1 = Plan.skipped "bp" ∧
    createPlan fxUHosts fxUBp (some ⟨0⟩) "A" 200000000 =
      (dispatchMode fxUHosts fxUBp "A", some (addInterval .daily ⟨0⟩)) := by
  exact ⟨(createPlan_due_check fxUHosts fxUBp "A" 50000000).1 ⟨0⟩ (by decide),
    (createPlan_due_check fxUHosts fxUBp "A" 200000000).2.1 ⟨0⟩ (by decide)⟩

/-- Counterexample to C8: createPlan does not leave its latestRun
argument unchanged — after one call on a Date at the epoch the Date
holds the epoch plus one day — and a second call observing the mutated
Date returns a different plan (skipped) than the first (an ssh-agent
plan). -/
theorem createPlan_mutation_observed :
    (createPlan fxUHosts fxUBp (some ⟨0⟩) "A" 100000000).2 ≠ some ⟨0⟩ ∧
    (createPlan fxUHosts fxUBp (some ⟨0⟩) "A" 100000000).1 ≠
      (createPlan fxUHosts fxUBp ((createPlan fxUHosts fxUBp (some ⟨0⟩) "A" 100000000).2)
        "A" 100000000).1 := by
  decide

/-- Claim C8 as amended: createPlan is deterministic in its argument
values, but it advances the latestRun Date it is handed by one interval
in place; the caller's Date after the call always holds lastRun plus the
interval, not the original timestamp. -/
theorem createPlan_advances_latestRun (hosts : HostMap) (b : Blueprint) (d : JSDate)
    (agentId : String) (now : Int) :
    (createPlan hosts b (some d) agentId now).2 = some (addInterval b.interval d) := by
  simp only [createPlan]
  split <;> rfl

/-- Counterexample to C1: a source host whose available field is the
string unreachable (a truthy value) passes the availability check, and
createPlan emits an ssh-agent plan for it instead of the failed plan the
claim requires. -/
theorem unreachable_source_accepted :
    fxUB.available = some Availability.unreachable ∧
    (createPlan fxUHosts fxUBp none "A" 0).1 =
      Plan.sshAgent "bp" fxUB none (.files ["/etc"])
        { retainOnHost := some "/keep/"
          downloadLocally := .flag false
          directlyCloneTo := []
          redirectCloneTo := []
          receiveCloneFrom := [] } := by
  decide

/-- Claim C1 as amended: every ssh-agent plan the planner emits has a
source host that exists in the catalog and whose available field is
present (the check rejects only a missing value, so the truthy string
unreachable passes it). -/
theorem sshAgent_plan_source_exists (hosts : HostMap) (b : Blueprint) (lr : Option JSDate)
    (agentId : String) (now : Int) (bHost : String) (hooks : Option Hooks)
    (strategy : BackupStrategy) (dests : List Destination) (i : String) (hst : Host)
    (hk : Option Hooks) (st : BackupStrategy) (cl : CloneStrategy)
    (hm : b.mode = .sshAgent bHost hooks strategy dests)
    (hp : (createPlan hosts b lr agentId now).1 = .sshAgent i hst hk st cl) :
    recGet hosts bHost = some hst ∧ hst.available.isSome := by
  obtain ⟨bH, hks, strat, ds, hbm, hrec, hav, _, _, _, _⟩ :=
    dispatch_sshAgent_inv (createPlan_fst_eq_dispatch hp)
  rw [hm] at hbm
  obtain ⟨h1, _, _, _⟩ := BlueprintMode.sshAgent.inj hbm
  rw [h1]
  exact ⟨hrec, hav⟩

/-- Witness for the amended C1: in the direct-only catalog the emitted
plan's source host is the resolved B, whose available field is present. -/
theorem sshAgent_plan_source_exists_witness :
    recGet fxDHosts "B" = some fxDB ∧ fxDB.available.isSome := by
  exact sshAgent_plan_source_exists fxDHosts fxRBp none "A" 0 "B" none (.files ["/etc"])
    [⟨"C", "/bk/"⟩] "bp" fxDB none (.files ["/etc"]) fxDirClone rfl (by decide)

/-- Claim C2 refuted (code bug): in a catalog where the only transport
for the single destination C is the destination-initiated pull, the
assembled clone strategy has receiveCloneFrom equal to that destination,
yet createPlan returns the failed plan, because the viability guard
never consults receiveCloneFrom. -/
theorem receive_only_plan_fails :
    (planClone fxRHosts fxRB "B" "A" [⟨"C", "/bk/"⟩]).receiveCloneFrom = [⟨"C", "/bk/"⟩] ∧
    noViable (planClone fxRHosts fxRB "B" "A" [⟨"C", "/bk/"⟩]) = true ∧
    (createPlan fxRHosts fxRBp none "A" 0).1 = Plan.failed "bp" := by
  decide

/-- Claim C3 refuted (code bug): loading a catalog in which every probe
connection fails still marks the probed peer B reachable, because the
unawaited connection attempt can never be observed to fail; the awaited
probe loop the specification describes marks B unreachable on the same
input. -/
theorem probe_failure_still_reachable :
    recGet (fetchHosts [fxFA, fxFB] "A") "B" =
      some { fxFB with available := some .reachable } ∧
    recGet (fetchHostsAwaited [fxFA, fxFB] "A" fxProbeDown) "B" =
      some { fxFB with available := some .unreachable } := by
  decide

/-- Claim C7: in every ssh-agent plan the planner emits, the three
buckets are pairwise disjoint, and no bucket entry names the agent or
the plan's source host. -/
theorem plan_buckets_disjoint (hosts : HostMap) (b : Blueprint) (lr : Option JSDate)
    (agentId : String) (now : Int) (i : String) (hst : Host) (hk : Option Hooks)
    (st : BackupStrategy) (cl : CloneStrategy)
    (hp : (createPlan hosts b lr agentId now).1 = .sshAgent i hst hk st cl)
    (d : Destination) :
    (d ∈ cl.directlyCloneTo → d ∉ cl.redirectCloneTo ∧ d ∉ cl.receiveCloneFrom) ∧
    (d ∈ cl.redirectCloneTo → d ∉ cl.receiveCloneFrom) ∧
    ((d ∈ cl.directlyCloneTo ∨ d ∈ cl.redirectCloneTo ∨ d ∈ cl.receiveCloneFrom) →
      d.host ≠ agentId ∧ d.host ≠ hst.hostId) := by
  obtain ⟨bH, hks, strat, ds, hbm, hrec, hav, hi, hhk, hst', hcl⟩ :=
    dispatch_sshAgent_inv (createPlan_fst_eq_dispatch hp)
  obtain ⟨hdir, hred, hrcv, _⟩ := finalizeClone_buckets (planClone hosts hst bH agentId ds)
  subst hcl
  rw [hdir, hred, hrcv]
  simp only [planClone, buildClone]
  refine ⟨fun hmem => ?_, fun hmem => ?_, fun hmem => ?_⟩
  · rw [List.mem_filter] at hmem
    constructor
    · intro hmem₂
      rw [List.mem_filter] at hmem₂
      have h1 := hmem.2
      have h2 := hmem₂.2
      simp only [directPred] at h1
      simp only [redirectPred, h1, Bool.not_true, Bool.false_and] at h2
      exact absurd h2 (by simp)
    · intro hmem₂
      rw [List.mem_filter] at hmem₂
      have h1 := hmem.2
      have h2 := hmem₂.2
      simp only [directPred] at h1
      simp only [receivePred, h1, Bool.not_true, Bool.false_and] at h2
      exact absurd h2 (by simp)
  · intro hmem₂
    rw [List.mem_filter] at hmem hmem₂
    have h1 := hmem.2
    have h2 := hmem₂.2
    rw [redirectPred, Bool.and_eq_true] at h1
    rw [receivePred, Bool.and_eq_true] at h2
    have h3 := h1.2
    rw [Bool.not_eq_true', h2.2] at h3
    exact absurd h3 (by simp)
  · have hsurv : survPred hosts hst.hostId agentId d = true := by
      rcases hmem with hmem | hmem | hmem <;>
      · rw [List.mem_filter] at hmem
        have := hmem.1
        rw [List.mem_filter] at this
        exact this.2
    exact survPred_host_ne hsurv

/-- Witness for C7: in the direct-only catalog the destination C sits in
directlyCloneTo, is absent from the other buckets, and names neither the
agent A nor the source host B. -/
theorem plan_buckets_disjoint_witness :
    ((⟨"C", "/bk/"⟩ : Destination) ∉ fxDirClone.redirectCloneTo ∧
      (⟨"C", "/bk/"⟩ : Destination) ∉ fxDirClone.receiveCloneFrom) ∧
    ("C" ≠ "A" ∧ "C" ≠ "B") := by
  have h := plan_buckets_disjoint fxDHosts fxRBp none "A" 0 "bp" fxDB none
    (.files ["/etc"]) fxDirClone (by decide) ⟨"C", "/bk/"⟩
  exact ⟨h.1 (by decide), h.2.2 (Or.inl (by decide))⟩

/-! Helper lemmas about executor traces. -/

/-- Decomposition of a successful sequencing: the first fragment
succeeded, the continuation succeeded on its value, and the traces
concatenate. -/
theorem andThen_eq_ok {α β : Type} {r : ExecRes α} {f : α → ExecRes β} {b : β}
    (h : (andThen r f).2 = .ok b) :
    ∃ a, r.2 = .ok a ∧ (f a).2 = .ok b ∧ (andThen r f).1 = r.1 ++ (f a).1 := by
  rcases r with ⟨t, e⟩
  cases e with
  | error e => simp [andThen] at h
  | ok a => exact ⟨a, rfl, h, rfl⟩

/-- An event of a sequenced trace comes from the first fragment or from
the continuation at some value. -/
theorem mem_andThen {α β : Type} {r : ExecRes α} {f : α → ExecRes β} {x : Ev}
    (h : x ∈ (andThen r f).1) : x ∈ r.1 ∨ ∃ a, x ∈ (f a).1 := by
  rcases r with ⟨t, e⟩
  cases e with
  | error e => exact Or.inl h
  | ok a =>
    rcases List.mem_append.mp h with h | h
    · exact Or.inl h
    · exact Or.inr ⟨a, h⟩

/-- Counting distributes over trace concatenation. -/
theorem countEv_append (x : Ev) (s t : List Ev) :
    countEv x (s ++ t) = countEv x s + countEv x t := by
  induction s with
  | nil => simp [countEv]
  | cons y s ih => simp [countEv, ih, Nat.add_assoc]

/-- An absent event has count zero. -/
theorem countEv_eq_zero {x : Ev} : ∀ {t : List Ev}, x ∉ t → countEv x t = 0
  | [], _ => rfl
  | y :: t, h => by
    have hy : ¬y = x := by
      intro he
      subst he
      exact h (List.mem_cons_self y t)
    rw [countEv, if_neg hy, countEv_eq_zero fun hm => h (List.mem_cons_of_mem y hm)]

/-- Session balance is preserved by concatenation. -/
theorem balanced_append {s t : List Ev} (hs : sessionBalanced s) (ht : sessionBalanced t) :
    sessionBalanced (s ++ t) := fun c => by
  rw [countEv_append, countEv_append, hs c, ht c]

/-- A trace with no session events at all is balanced. -/
theorem balanced_of_no_sessions {t : List Ev}
    (h : ∀ c, Ev.ready c ∉ t ∧ Ev.finish c ∉ t) : sessionBalanced t := fun c => by
  rw [countEv_eq_zero (h c).1, countEv_eq_zero (h c).2]

/-- A trace of remote commands only has no session events. -/
theorem no_sessions_of_remoteCmds {t : List Ev}
    (h : ∀ x ∈ t, isRemoteCmd x = true) : ∀ c, Ev.ready c ∉ t ∧ Ev.finish c ∉ t := by
  intro c
  constructor <;> intro hx <;> simpa [isRemoteCmd] using h _ hx

/-- A ready event bracketed by its finish around a balanced middle is
balanced. -/
theorem balanced_wrap {c₀ : Option SSHConfig} {mid : List Ev} (hmid : sessionBalanced mid) :
    sessionBalanced (Ev.ready c₀ :: (mid ++ [Ev.finish c₀])) := by
  intro c
  simp only [countEv, countEv_append, hmid c]
  by_cases hc : c₀ = c
  · subst hc
    simp
    omega
  · have h1 : ¬(Ev.ready c₀ = Ev.ready c) := by simpa using hc
    have h2 : ¬(Ev.finish c₀ = Ev.finish c) := by simpa using hc
    simp [h1, h2]

/-- Hook steps emit remote commands only. -/
theorem remoteCmds_hookOp (o : Oracle) (s : Option SSHConfig) (hk : Option Hook) :
    ∀ x ∈ (hookOp o s hk).1, isRemoteCmd x = true := by
  intro x hx
  cases hk with
  | none => simp [hookOp] at hx
  | some h =>
    simp [hookOp, andThen, execCommandOp] at hx
    subst hx
    rfl

/-- SSHExecutor.execute emits remote commands only: it opens no session
of its own and touches no local file. -/
theorem remoteCmds_sshExecute (o : Oracle) (s : Option SSHConfig) (pkgFn dumpFn : String)
    (hooks : Option Hooks) (strategy : BackupStrategy) :
    ∀ x ∈ (SSHExecutor.execute o s pkgFn dumpFn hooks strategy).1, isRemoteCmd x = true := by
  intro x hx
  unfold SSHExecutor.execute at hx
  rcases mem_andThen hx with h | ⟨a, h⟩
  · exact remoteCmds_hookOp _ _ _ _ h
  · rcases mem_andThen h with h | ⟨a₂, h⟩
    · cases strategy with
      | files paths =>
        simp [execOp] at h
        subst h
        rfl
      | mongodb url =>
        rcases mem_andThen h with h | ⟨a₃, h⟩
        · simp [mongodumpOp] at h
          subst h
          rfl
        · rcases mem_andThen h with h | ⟨a₄, h⟩
          · simp [execOp] at h
            subst h
            rfl
          · simp [execOp] at h
            subst h
            rfl
    · rcases mem_andThen h with h | ⟨a₃, h⟩
      · exact remoteCmds_hookOp _ _ _ _ h
      · simp at h

/-- scpUpload emits remote commands only. -/
theorem remoteCmds_scpUpload (o : Oracle) (s : Option SSHConfig) (l : String)
    (r : Option SSHConfig) (rf : String) :
    ∀ x ∈ (scpUploadOp o s l r rf).1, isRemoteCmd x = true := by
  intro x hx
  cases r with
  | none => simp [scpUploadOp, scpAsserts] at hx
  | some cfg =>
    simp only [scpUploadOp, scpAsserts] at hx
    split_ifs at hx
    · simp at hx
    · simp at hx
    · simp at hx
    · simp [execOp] at hx
      subst hx
      rfl

/-- scpDownload emits remote commands only. -/
theorem remoteCmds_scpDownload (o : Oracle) (s : Option SSHConfig) (rf : String)
    (r : Option SSHConfig) (l : String) :
    ∀ x ∈ (scpDownloadOp o s rf r l).1, isRemoteCmd x = true := by
  intro x hx
  cases r with
  | none => simp [scpDownloadOp, scpAsserts] at hx
  | some cfg =>
    simp only [scpDownloadOp, scpAsserts] at hx
    split_ifs at hx
    · simp at hx
    · simp at hx
    · simp at hx
    · simp [execOp] at hx
      subst hx
      rfl

/-- The direct-upload loop emits remote commands only. -/
theorem remoteCmds_uploadAll (o : Oracle) (s : Option SSHConfig) (hosts : HostMap)
    (srcId pkgFn backupName : String) :
    ∀ ds : List Destination, ∀ x ∈ (uploadAll o s hosts srcId pkgFn backupName ds).1,
      isRemoteCmd x = true := by
  intro ds
  induction ds with
  | nil =>
    intro x hx
    simp [uploadAll] at hx
  | cons d rest ih =>
    intro x hx
    simp only [uploadAll] at hx
    rcases mem_andThen hx with h | ⟨a, h⟩
    · exact remoteCmds_scpUpload _ _ _ _ _ _ h
    · exact ih _ h

/-- The retention step emits remote commands only. -/
theorem remoteCmds_retainStage (o : Oracle) (s : Option SSHConfig) (retain : Option String)
    (pkgFn backupName : String) :
    ∀ x ∈ (retainStage o s retain pkgFn backupName).1, isRemoteCmd x = true := by
  intro x hx
  cases retain <;> simp [retainStage, execOp] at hx <;> subst hx <;> rfl

/-- A successful receive loop closes every session it opens. -/
theorem receiveAll_ok_balanced (o : Oracle) (hosts : HostMap)
    (agentId srcId pkgFn backupName : String) :
    ∀ ds : List Destination,
      (receiveAll o hosts agentId srcId pkgFn backupName ds).2 = .ok () →
      sessionBalanced (receiveAll o hosts agentId srcId pkgFn backupName ds).1 := by
  intro ds
  induction ds with
  | nil =>
    intro _ c
    rfl
  | cons d rest ih =>
    intro h
    simp only [receiveAll] at h ⊢
    obtain ⟨a₁, h1, h2, e1⟩ := andThen_eq_ok h
    obtain ⟨a₂, h3, h4, e2⟩ := andThen_eq_ok h2
    obtain ⟨a₃, h5, h6, e3⟩ := andThen_eq_ok h4
    rw [e1, e2, e3]
    have hmid := balanced_of_no_sessions
      (no_sessions_of_remoteCmds
        (remoteCmds_scpDownload o ((recGet hosts agentId).bind fun a => recGet a.ssh d.host)
          pkgFn ((recGet hosts d.host).bind fun hh => recGet hh.ssh srcId)
          (d.path ++ backupName)))
    have hshape :
        (connectOp o ((recGet hosts agentId).bind fun a => recGet a.ssh d.host)).1 ++
          ((scpDownloadOp o ((recGet hosts agentId).bind fun a => recGet a.ssh d.host) pkgFn
              ((recGet hosts d.host).bind fun hh => recGet hh.ssh srcId)
              (d.path ++ backupName)).1 ++
            ((disposeOp ((recGet hosts agentId).bind fun a => recGet a.ssh d.host)).1 ++
              (receiveAll o hosts agentId srcId pkgFn backupName rest).1)) =
        (Ev.ready ((recGet hosts agentId).bind fun a => recGet a.ssh d.host) ::
          ((scpDownloadOp o ((recGet hosts agentId).bind fun a => recGet a.ssh d.host) pkgFn
              ((recGet hosts d.host).bind fun hh => recGet hh.ssh srcId)
              (d.path ++ backupName)).1 ++
            [Ev.finish ((recGet hosts agentId).bind fun a => recGet a.ssh d.host)])) ++
          (receiveAll o hosts agentId srcId pkgFn backupName rest).1 := by
      simp [connectOp, disposeOp, List.append_assoc]
    rw [hshape]
    exact balanced_append (balanced_wrap hmid) (ih h6)

/-- A successful redirect loop closes every session it opens. -/
theorem redirectAll_ok_balanced (o : Oracle) (hosts : HostMap)
    (agentId localFile backupName : String) :
    ∀ ds : List Destination,
      (redirectAll o hosts agentId localFile backupName ds).2 = .ok () →
      sessionBalanced (redirectAll o hosts agentId localFile backupName ds).1 := by
  intro ds
  induction ds with
  | nil =>
    intro _ c
    rfl
  | cons d rest ih =>
    intro h
    simp only [redirectAll] at h ⊢
    obtain ⟨a₁, h1, h2, e1⟩ := andThen_eq_ok h
    obtain ⟨a₂, h3, h4, e2⟩ := andThen_eq_ok h2
    obtain ⟨a₃, h5, h6, e3⟩ := andThen_eq_ok h4
    rw [e1, e2, e3]
    have hmid : sessionBalanced
        (putFileOp o ((recGet hosts agentId).bind fun a => recGet a.ssh d.host) localFile
          (d.path ++ backupName)).1 := by
      apply balanced_of_no_sessions
      intro c
      constructor <;> intro hx <;> simp [putFileOp] at hx
    have hshape :
        (connectOp o ((recGet hosts agentId).bind fun a => recGet a.ssh d.host)).1 ++
          ((putFileOp o ((recGet hosts agentId).bind fun a => recGet a.ssh d.host) localFile
              (d.path ++ backupName)).1 ++
            ((disposeOp ((recGet hosts agentId).bind fun a => recGet a.ssh d.host)).1 ++
              (redirectAll o hosts agentId localFile backupName rest).1)) =
        (Ev.ready ((recGet hosts agentId).bind fun a => recGet a.ssh d.host) ::
          ((putFileOp o ((recGet hosts agentId).bind fun a => recGet a.ssh d.host) localFile
              (d.path ++ backupName)).1 ++
            [Ev.finish ((recGet hosts agentId).bind fun a => recGet a.ssh d.host)])) ++
          (redirectAll o hosts agentId localFile backupName rest).1 := by
      simp [connectOp, disposeOp, List.append_assoc]
    rw [hshape]
    exact balanced_append (balanced_wrap hmid) (ih h6)

/-- A successful local stage closes every session it opens. -/
theorem localStage_ok_balanced (o : Oracle) (s : Option SSHConfig) (hosts : HostMap)
    (agentId : String) (dl : PathOrBool) (redirect : List Destination)
    (pkgFn backupName : String) (resolveP : String → String)
    (h : (localStage o s hosts agentId dl redirect pkgFn backupName resolveP).2 = .ok ()) :
    sessionBalanced (localStage o s hosts agentId dl redirect pkgFn backupName resolveP).1 := by
  unfold localStage at h ⊢
  by_cases htr : truthy dl = true
  · rw [if_pos htr] at h ⊢
    obtain ⟨a₁, h1, h2, e1⟩ := andThen_eq_ok h
    obtain ⟨a₂, h3, h4, e2⟩ := andThen_eq_ok h2
    rw [e1, e2]
    cases a₂
    refine balanced_append ?_ (balanced_append (redirectAll_ok_balanced _ _ _ _ _ _ h3) ?_)
    · apply balanced_of_no_sessions
      intro c
      constructor <;> intro hx <;> simp [getFileOp] at hx
    · cases dl with
      | withPath p =>
        intro c
        rfl
      | flag b =>
        apply balanced_of_no_sessions
        intro c
        constructor <;> intro hx <;> simp [rmLocalOp] at hx
  · rw [if_neg htr] at h ⊢
    intro c
    rfl

/-- A successful executeBody closes every session it opens: the main
session brackets a middle composed of remote-command stages and the
balanced fan-out loops. -/
theorem executeBody_ok_balanced (o : Oracle) (hosts : HostMap) (agentId id : String)
    (host : Host) (hooks : Option Hooks) (strategy : BackupStrategy) (clone : CloneStrategy)
    (pkgFn dumpFn isoNow : String) (resolveP : String → String) (agentH : Host)
    (h : (executeBody o hosts agentId id host hooks strategy clone pkgFn dumpFn isoNow
        resolveP agentH).2 = .ok ()) :
    sessionBalanced (executeBody o hosts agentId id host hooks strategy clone pkgFn dumpFn
      isoNow resolveP agentH).1 := by
  unfold executeBody at h ⊢
  obtain ⟨a₁, h1, h2, e1⟩ := andThen_eq_ok h
  obtain ⟨pkg, h3, h4, e2⟩ := andThen_eq_ok h2
  obtain ⟨a₃, h5, h6, e3⟩ := andThen_eq_ok h4
  obtain ⟨a₄, h7, h8, e4⟩ := andThen_eq_ok h6
  obtain ⟨a₅, h9, h10, e5⟩ := andThen_eq_ok h8
  obtain ⟨a₆, h11, h12, e6⟩ := andThen_eq_ok h10
  rw [e1, e2, e3, e4, e5, e6]
  cases a₅
  have hssh := balanced_of_no_sessions
    (no_sessions_of_remoteCmds
      (remoteCmds_sshExecute o (recGet agentH.ssh host.hostId) pkgFn dumpFn hooks strategy))
  have hup := balanced_of_no_sessions
    (no_sessions_of_remoteCmds
      (remoteCmds_uploadAll o (recGet agentH.ssh host.hostId) hosts host.hostId pkg
        (backupNameOf id isoNow) clone.directlyCloneTo))
  have hrcv := receiveAll_ok_balanced o hosts agentId host.hostId pkg
    (backupNameOf id isoNow) clone.receiveCloneFrom h7
  have hloc := localStage_ok_balanced o (recGet agentH.ssh host.hostId) hosts agentId
    clone.downloadLocally clone.redirectCloneTo pkg (backupNameOf id isoNow) resolveP h9
  have hret := balanced_of_no_sessions
    (no_sessions_of_remoteCmds
      (remoteCmds_retainStage o (recGet agentH.ssh host.hostId) clone.retainOnHost pkg
        (backupNameOf id isoNow)))
  have hshape :
      (connectOp o (recGet agentH.ssh host.hostId)).1 ++
        ((SSHExecutor.execute o (recGet agentH.ssh host.hostId) pkgFn dumpFn hooks
            strategy).1 ++
          ((uploadAll o (recGet agentH.ssh host.hostId) hosts host.hostId pkg
              (backupNameOf id isoNow) clone.directlyCloneTo).1 ++
            ((receiveAll o hosts agentId host.hostId pkg (backupNameOf id isoNow)
                clone.receiveCloneFrom).1 ++
              ((localStage o (recGet agentH.ssh host.hostId) hosts agentId
                  clone.downloadLocally clone.redirectCloneTo pkg (backupNameOf id isoNow)
                  resolveP).1 ++
                ((retainStage o (recGet agentH.ssh host.hostId) clone.retainOnHost pkg
                    (backupNameOf id isoNow)).1 ++
                  (disposeOp (recGet agentH.ssh host.hostId)).1))))) =
      Ev.ready (recGet agentH.ssh host.hostId) ::
        (((SSHExecutor.execute o (recGet agentH.ssh host.hostId) pkgFn dumpFn hooks
            strategy).1 ++
          ((uploadAll o (recGet agentH.ssh host.hostId) hosts host.hostId pkg
              (backupNameOf id isoNow) clone.directlyCloneTo).1 ++
            ((receiveAll o hosts agentId host.hostId pkg (backupNameOf id isoNow)
                clone.receiveCloneFrom).1 ++
              ((localStage o (recGet agentH.ssh host.hostId) hosts agentId
                  clone.downloadLocally clone.redirectCloneTo pkg (backupNameOf id isoNow)
                  resolveP).1 ++
                (retainStage o (recGet agentH.ssh host.hostId) clone.retainOnHost pkg
                  (backupNameOf id isoNow)).1)))) ++
          [Ev.finish (recGet agentH.ssh host.hostId)]) := by
    simp [connectOp, disposeOp, List.append_assoc]
  rw [hshape]
  exact balanced_wrap
    (balanced_append hssh (balanced_append hup (balanced_append hrcv
      (balanced_append hloc hret))))

/-- A remote-command trace touches no local file. -/
theorem no_local_of_remoteCmds {t : List Ev} (h : ∀ x ∈ t, isRemoteCmd x = true) :
    ∀ x ∈ t, isLocalFileEv x = false := by
  intro x hx
  have := h x hx
  cases x <;> simp [isLocalFileEv] <;> simp [isRemoteCmd] at this

/-- The receive loop touches no local file. -/
theorem no_local_receiveAll (o : Oracle) (hosts : HostMap)
    (agentId srcId pkgFn backupName : String) :
    ∀ ds : List Destination,
      ∀ x ∈ (receiveAll o hosts agentId srcId pkgFn backupName ds).1,
        isLocalFileEv x = false := by
  intro ds
  induction ds with
  | nil =>
    intro x hx
    simp [receiveAll] at hx
  | cons d rest ih =>
    intro x hx
    simp only [receiveAll] at hx
    rcases mem_andThen hx with h | ⟨a₁, hx⟩
    · simp [connectOp] at h
      subst h
      rfl
    · rcases mem_andThen hx with h | ⟨a₂, hx⟩
      · exact no_local_of_remoteCmds
          (remoteCmds_scpDownload o _ pkgFn _ (d.path ++ backupName)) x h
      · rcases mem_andThen hx with h | ⟨a₃, hx⟩
        · simp [disposeOp] at h
          subst h
          rfl
        · exact ih x hx

/-- The redirect loop touches no local file other than by reading the
staged archive for upload. -/
theorem no_local_redirectAll (o : Oracle) (hosts : HostMap)
    (agentId localFile backupName : String) :
    ∀ ds : List Destination,
      ∀ x ∈ (redirectAll o hosts agentId localFile backupName ds).1,
        isLocalFileEv x = false := by
  intro ds
  induction ds with
  | nil =>
    intro x hx
    simp [redirectAll] at hx
  | cons d rest ih =>
    intro x hx
    simp only [redirectAll] at hx
    rcases mem_andThen hx with h | ⟨a₁, hx⟩
    · simp [connectOp] at h
      subst h
      rfl
    · rcases mem_andThen hx with h | ⟨a₂, hx⟩
      · simp [putFileOp] at h
        subst h
        rfl
      · rcases mem_andThen hx with h | ⟨a₃, hx⟩
        · simp [disposeOp] at h
          subst h
          rfl
        · exact ih x hx

/-- Every local-file event of the local stage: the download always
targets the fixed resolved ./backups location, and the deletion occurs
only when downloadLocally is the boolean true, again at that fixed
location. -/
theorem localStage_local_events (o : Oracle) (s : Option SSHConfig) (hosts : HostMap)
    (agentId : String) (dl : PathOrBool) (redirect : List Destination)
    (pkgFn backupName : String) (resolveP : String → String) :
    ∀ x ∈ (localStage o s hosts agentId dl redirect pkgFn backupName resolveP).1,
      (∀ c l r, x = Ev.getFile c l r → l = resolveP ("./backups/" ++ backupName)) ∧
      (∀ l, x = Ev.rmLocal l →
        dl = .flag true ∧ l = resolveP ("./backups/" ++ backupName)) := by
  intro x hx
  unfold localStage at hx
  by_cases htr : truthy dl = true
  · rw [if_pos htr] at hx
    rcases mem_andThen hx with h | ⟨a₁, hx⟩
    · simp [getFileOp] at h
      subst h
      constructor
      · intro c l r he
        obtain ⟨_, hl, _⟩ := Ev.getFile.inj he
        exact hl.symm
      · intro l he
        exact absurd he (by simp)
    · rcases mem_andThen hx with h | ⟨a₂, hx⟩
      · have hno := no_local_redirectAll o hosts agentId
          (resolveP ("./backups/" ++ backupName)) backupName redirect x h
        constructor
        · intro c l r he
          rw [he] at hno
          simp [isLocalFileEv] at hno
        · intro l he
          rw [he] at hno
          simp [isLocalFileEv] at hno
      · cases dl with
        | withPath p =>
          simp at hx
        | flag b =>
          simp [rmLocalOp] at hx
          subst hx
          constructor
          · intro c l r he
            exact absurd he (by simp)
          · intro l he
            have hb : b = true := by simpa [truthy] using htr
            obtain hl := Ev.rmLocal.inj he
            exact ⟨by rw [hb], hl.symm⟩
  · rw [if_neg htr] at hx
    simp at hx

/-- Every local-file event of executeBody comes from the local stage
and obeys its discipline. -/
theorem executeBody_local_events (o : Oracle) (hosts : HostMap) (agentId id : String)
    (host : Host) (hooks : Option Hooks) (strategy : BackupStrategy) (clone : CloneStrategy)
    (pkgFn dumpFn isoNow : String) (resolveP : String → String) (agentH : Host) :
    ∀ x ∈ (executeBody o hosts agentId id host hooks strategy clone pkgFn dumpFn isoNow
        resolveP agentH).1,
      (∀ c l r, x = Ev.getFile c l r →
        l = resolveP ("./backups/" ++ backupNameOf id isoNow)) ∧
      (∀ l, x = Ev.rmLocal l →
        clone.downloadLocally = .flag true ∧
          l = resolveP ("./backups/" ++ backupNameOf id isoNow)) := by
  intro x hx
  unfold executeBody at hx
  have hclose : isLocalFileEv x = false →
      (∀ c l r, x = Ev.getFile c l r →
        l = resolveP ("./backups/" ++ backupNameOf id isoNow)) ∧
      (∀ l, x = Ev.rmLocal l →
        clone.downloadLocally = .flag true ∧
          l = resolveP ("./backups/" ++ backupNameOf id isoNow)) := by
    intro hno
    constructor
    · intro c l r he
      rw [he] at hno
      simp [isLocalFileEv] at hno
    · intro l he
      rw [he] at hno
      simp [isLocalFileEv] at hno
  rcases mem_andThen hx with h | ⟨a₁, hx⟩
  · refine hclose ?_
    simp [connectOp] at h
    subst h
    rfl
  · rcases mem_andThen hx with h | ⟨pkg, hx⟩
    · exact hclose (no_local_of_remoteCmds
        (remoteCmds_sshExecute o _ pkgFn dumpFn hooks strategy) x h)
    · rcases mem_andThen hx with h | ⟨a₃, hx⟩
      · exact hclose (no_local_of_remoteCmds
          (remoteCmds_uploadAll o _ hosts host.hostId pkg (backupNameOf id isoNow)
            clone.directlyCloneTo) x h)
      · rcases mem_andThen hx with h | ⟨a₄, hx⟩
        · exact hclose (no_local_receiveAll o hosts agentId host.hostId pkg
            (backupNameOf id isoNow) clone.receiveCloneFrom x h)
        · rcases mem_andThen hx with h | ⟨a₅, hx⟩
          · exact localStage_local_events o _ hosts agentId clone.downloadLocally
              clone.redirectCloneTo pkg (backupNameOf id isoNow) resolveP x h
          · rcases mem_andThen hx with h | ⟨a₆, hx⟩
            · exact hclose (no_local_of_remoteCmds
                (remoteCmds_retainStage o _ clone.retainOnHost pkg
                  (backupNameOf id isoNow)) x h)
            · refine hclose ?_
              simp [disposeOp] at hx
              subst hx
              rfl

/-! Claim theorems about the executor. -/

/-- Counterexample to C5: with every remote command succeeding but the
pre hook reporting exit status 1, SSHExecutor.execute still returns the
archive path instead of raising — the execCommand response carrying the
status is discarded by the source. -/
theorem pre_hook_nonzero_exit_not_fatal :
    fxHookExit1.exitCode (Ev.execCommand (some fxCfg) "./stop.sh" "/srv") = 1 ∧
    (SSHExecutor.execute fxHookExit1 (some fxCfg) "/tmp/b.tar.gz" "/tmp/d"
        (some { pre := some ⟨"/srv", "./stop.sh"⟩ }) (.files ["/etc"])).2 =
      .ok "/tmp/b.tar.gz" := by
  exact ⟨rfl, rfl⟩

/-- Claim C5 as amended: when hooks.pre is set, SSHExecutor.execute runs
the pre-hook command in the given working directory first, before the
archive build; beyond contributing that one event, the hook has no
influence at all on the run — in particular its exit status is ignored
and never aborts execution. -/
theorem pre_hook_first_and_ignored (o : Oracle) (s : Option SSHConfig) (pkgFn dumpFn : String)
    (h : Hook) (po : Option Hook) (strategy : BackupStrategy) :
    SSHExecutor.execute o s pkgFn dumpFn (some ⟨some h, po⟩) strategy =
      (Ev.execCommand s h.cmd h.cwd ::
        (SSHExecutor.execute o s pkgFn dumpFn (some ⟨none, po⟩) strategy).1,
       (SSHExecutor.execute o s pkgFn dumpFn (some ⟨none, po⟩) strategy).2) := by
  rfl

/-- Claim C9: with every remote command succeeding, the files strategy
archives with tar czvfP over the blueprint's paths, and the mongodb
strategy dumps, archives the dump directory with tar cvfP (no gzip) and
removes it with rm -r; both tar invocations carry the P flag. -/
theorem archive_build_commands (s : Option SSHConfig) (pkgFn dumpFn : String)
    (hooks : Option Hooks) (paths : List String) (url : String) :
    SSHExecutor.execute allOk s pkgFn dumpFn hooks (.files paths) =
      (preEvs s hooks ++ [Ev.exec s "tar" ("czvfP" :: pkgFn :: paths)] ++ postEvs s hooks,
        .ok pkgFn) ∧
    SSHExecutor.execute allOk s pkgFn dumpFn hooks (.mongodb url) =
      (preEvs s hooks ++
        [Ev.exec s "mongodump" ["-o", dumpFn, url],
          Ev.exec s "tar" ["cvfP", pkgFn, dumpFn],
          Ev.exec s "rm" ["-r", dumpFn]] ++ postEvs s hooks,
        .ok pkgFn) := by
  constructor <;>
  · rcases hpre : hooks.bind fun hk => hk.pre with _ | h₁ <;>
      rcases hpo : hooks.bind fun hk => hk.post with _ | h₂ <;>
      simp [SSHExecutor.execute, hookOp, preEvs, postEvs, hpre, hpo, execCommandOp,
        execOp, mongodumpOp, allOk, andThen]

/-- Counterexample to C4: when the remote tar invocation fails during
the strategy run, the main SSH session was readied but execute ends (by
raising) without ever emitting its finish — the session is leaked on the
caught-failure path. -/
theorem session_not_closed_on_failure :
    Ev.ready (some fxCfg) ∈
      (execute fxTarFail fxRHosts "A" fxPlan "/tmp/b.tar.gz" "/tmp/d" "T" id).1 ∧
    Ev.finish (some fxCfg) ∉
      (execute fxTarFail fxRHosts "A" fxPlan "/tmp/b.tar.gz" "/tmp/d" "T" id).1 := by
  decide

/-- Claim C4 as amended: on a run of one plan that completes without a
raised error, every SSH session execute opened is closed — the trace
holds as many ready as finish events for every configuration.  (When a
step raises, the coordinator catches the error but the finish calls
scheduled after the failing step never happen.) -/
theorem execute_ok_sessions_balanced (o : Oracle) (hosts : HostMap) (agentId : String)
    (plan : Plan) (pkgFn dumpFn isoNow : String) (resolveP : String → String)
    (h : (execute o hosts agentId plan pkgFn dumpFn isoNow resolveP).2 = .ok ()) :
    sessionBalanced (execute o hosts agentId plan pkgFn dumpFn isoNow resolveP).1 := by
  cases plan with
  | skipped id =>
    intro c
    rfl
  | failed id =>
    intro c
    rfl
  | sshAgent id host hooks strategy clone =>
    unfold execute at h ⊢
    rcases hag : recGet hosts agentId with _ | agentH
    · rw [hag] at h
      simp at h
    · rw [hag] at h
      exact executeBody_ok_balanced o hosts agentId id host hooks strategy clone pkgFn
        dumpFn isoNow resolveP agentH h

/-- Witness for the amended C4: the all-success run of the fixture plan
opens and closes the main session exactly once. -/
theorem execute_ok_sessions_balanced_witness :
    countEv (Ev.ready (some fxCfg))
        (execute allOk fxRHosts "A" fxPlan "/tmp/b.tar.gz" "/tmp/d" "T" id).1 =
      countEv (Ev.finish (some fxCfg))
        (execute allOk fxRHosts "A" fxPlan "/tmp/b.tar.gz" "/tmp/d" "T" id).1 := by
  exact execute_ok_sessions_balanced allOk fxRHosts "A" fxPlan "/tmp/b.tar.gz" "/tmp/d"
    "T" id rfl (some fxCfg)

/-- Claim C10: the executor never reads the path field of an object
downloadLocally (two plans differing only in that field run
identically); every download lands at the fixed resolved
./backups/backupName location; and a local deletion happens only when
downloadLocally is the boolean true, at that same location — so an
object-valued downloadLocally leaves the archive at the fixed spot. -/
theorem download_locally_object_behaviour (o : Oracle) (hosts : HostMap) (agentId : String)
    (id : String) (host : Host) (hk : Option Hooks) (st : BackupStrategy)
    (cl : CloneStrategy) (pkgFn dumpFn isoNow : String) (resolveP : String → String)
    (p q : String) :
    (execute o hosts agentId
        (.sshAgent id host hk st { cl with downloadLocally := .withPath p })
        pkgFn dumpFn isoNow resolveP =
      execute o hosts agentId
        (.sshAgent id host hk st { cl with downloadLocally := .withPath q })
        pkgFn dumpFn isoNow resolveP) ∧
    (∀ l, Ev.rmLocal l ∈
        (execute o hosts agentId (.sshAgent id host hk st cl) pkgFn dumpFn isoNow
          resolveP).1 →
      cl.downloadLocally = .flag true ∧
        l = resolveP ("./backups/" ++ backupNameOf id isoNow)) ∧
    (∀ c l r, Ev.getFile c l r ∈
        (execute o hosts agentId (.sshAgent id host hk st cl) pkgFn dumpFn isoNow
          resolveP).1 →
      l = resolveP ("./backups/" ++ backupNameOf id isoNow)) := by
  refine ⟨?_, ?_, ?_⟩
  · unfold execute
    rcases hag : recGet hosts agentId with _ | agentH
    · rfl
    · rfl
  · intro l hl
    unfold execute at hl
    rcases hag : recGet hosts agentId with _ | agentH
    · rw [hag] at hl
      simp at hl
    · rw [hag] at hl
      exact (executeBody_local_events o hosts agentId id host hk st cl pkgFn dumpFn isoNow
        resolveP agentH (Ev.rmLocal l) hl).2 l rfl
  · intro c l r hl
    unfold execute at hl
    rcases hag : recGet hosts agentId with _ | agentH
    · rw [hag] at hl
      simp at hl
    · rw [hag] at hl
      exact (executeBody_local_events o hosts agentId id host hk st cl pkgFn dumpFn isoNow
        resolveP agentH (Ev.getFile c l r) hl).1 c l r rfl

/-- Witness for C10: two fixture runs differing only in the object path
coincide, and applying the deletion clause to the staged-deletion run
confirms its downloadLocally is the boolean true with the deletion at
the fixed location. -/
theorem download_locally_object_behaviour_witness :
    (execute allOk fxRHosts "A"
        (.sshAgent "bp" fxRB none (.files ["/etc"])
          { fxClone with downloadLocally := .withPath "/x" })
        "/tmp/b.tar.gz" "/tmp/d" "T" id =
      execute allOk fxRHosts "A"
        (.sshAgent "bp" fxRB none (.files ["/etc"])
          { fxClone with downloadLocally := .withPath "/y" })
        "/tmp/b.tar.gz" "/tmp/d" "T" id) ∧
    (fxCloneDl.downloadLocally = PathOrBool.flag true ∧
      "./backups/bp_T.tar.gz" = id ("./backups/" ++ backupNameOf "bp" "T")) := by
  refine ⟨?_, ?_⟩
  · exact (download_locally_object_behaviour allOk fxRHosts "A" "bp" fxRB none
      (.files ["/etc"]) fxClone "/tmp/b.tar.gz" "/tmp/d" "T" id "/x" "/y").1
  · exact (download_locally_object_behaviour allOk fxRHosts "A" "bp" fxRB none
      (.files ["/etc"]) fxCloneDl "/tmp/b.tar.gz" "/tmp/d" "T" id "/x" "/y").2.1
      "./backups/bp_T.tar.gz" (by decide)

end BackupTool
